import Mathlib

set_option linter.unusedVariables false
set_option linter.unnecessarySeqFocus false

/-!
Shallow embedding of `src/training/cg_detr_dataset.py` (the CG-DETR dataset and
batching pipeline of the lighthouse repository).

Real-valued tensor entries are modelled as rationals, numpy arrays and torch
tensors as lists, and the calls to `random.shuffle` / `random.sample` as
explicit nondeterminism parameters: a shuffle outcome is an arbitrary
permutation of the input list, a sampler is an arbitrary function whose
relevant properties (members come from the pool, sampling `k ≤ len` elements
succeeds, sampling more raises) are hypotheses of the theorems that need them.
-/

/-- Python `int()` applied to a rational: truncation toward zero. -/
def pyInt (q : ℚ) : Int := if 0 ≤ q then ⌊q⌋ else ⌈q⌉

/-- Clamp an index the way a Python/numpy slice bound is clamped for a sequence of
length `n`: a negative bound counts from the end (clipped at 0), a bound past the
end is clipped to `n`. -/
def pySliceBound (n : Nat) (i : Int) : Nat :=
  if i < 0 then ((n : Int) + i).toNat else min i.toNat n

/-- `score_array = np.zeros(ctx_l)` followed by the slice assignment
`score_array[a:b] = 1` (`get_saliency_labels_sub_as_query`, lines 214-215). -/
def pySliceOnes (ctx_l : Nat) (a b : Int) : List ℚ :=
  (List.range ctx_l).map
    (fun j => if pySliceBound ctx_l a ≤ j ∧ j < pySliceBound ctx_l b then 1 else 0)

/-- Python `list(range(a, b))`. -/
def intRange (a b : Int) : List Int :=
  (List.range (b - a).toNat).map (fun (k : Nat) => a + (k : Int))

/-- The last `n` elements of a list: Python `l[-n:]` for `n ≥ 1`. -/
def lastN (l : List α) (n : Nat) : List α := l.drop (l.length - n)

/-- Insert an index `i` into an index list that is sorted by `key`, keeping
ascending order. -/
def insKey (key : Nat → ℚ) (i : Nat) : List Nat → List Nat
  | [] => [i]
  | j :: rest => if key i < key j then i :: j :: rest else j :: insKey key i rest

/-- `np.argsort` on a list of scores: the list of indices that sorts the scores
in increasing order (insertion sort; the order among equal scores is
unspecified by numpy and never relied upon here). -/
def argsort (scores : List ℚ) : List Nat :=
  (List.range scores.length).foldr (insKey (fun i => scores.getD i 0)) []

/-- Maximum length of the sequences in a batch. -/
def maxLen (seqs : List (List α)) : Nat := seqs.foldr (fun s m => max s.length m) 0

/-- Modelled from the spec: `pad_sequences_1d` (from
`lighthouse.common.utils.tensor_utils`, which is not under `src/`) is described
as "pad variable-length sequences into rectangular batches with masks" and
"variable-length sequences are padded with a mask": every sequence is padded
with the element `p` to the maximum length in the batch, and the mask marks the
valid (un-padded) positions. -/
def pad_sequences_1d (seqs : List (List α)) (p : α) : List (List α) × List (List Bool) :=
  (seqs.map (fun s => s ++ List.replicate (maxLen seqs - s.length) p),
   seqs.map (fun s => List.replicate s.length true ++
     List.replicate (maxLen seqs - s.length) false))

/-- The zero row used as padding for a batch of 2-d feature tensors: a zero
vector of the feature dimension of the first row. -/
def zeroRow (rows : List (List ℚ)) : List ℚ := List.replicate (rows.getD 0 []).length 0

/-- A concrete valid sampler for `random.sample`: take the first `k` elements of
the pool, failing (like `random.sample` raising `ValueError`) when `k` exceeds
the pool size.  Used by the witnesses to instantiate the sampler parameter. -/
def takeSample (pool : List Int) (k : Nat) : Option (List Int) :=
  if k ≤ pool.length then some (pool.take k) else none

lemma takeSample_mem (pool : List Int) (k : Nat) (l : List Int)
    (h : takeSample pool k = some l) : ∀ x ∈ l, x ∈ pool := by
  unfold takeSample at h
  split at h
  · cases h
    exact fun x hx => List.take_subset _ _ hx
  · cases h

lemma takeSample_isSome (pool : List Int) (k : Nat) (h : k ≤ pool.length) :
    (takeSample pool k).isSome := by
  simp [takeSample, h]

/-- `getD` at an index below the length is the corresponding element. -/
lemma getD_of_lt (l : List α) (i : Nat) (d : α) (h : i < l.length) :
    l.getD i d = l[i] := by
  simp [List.getD_eq_getElem?_getD, List.getElem?_eq_getElem h]

/-! ## Span labels -/

/-- Modelled from the spec: `span_xx_to_cxw` (from
`lighthouse.common.utils.span_utils`, which is not under `src/`) converts a
normalized (start, end) span into the "(center, width)" encoding the spec
describes for span labels. -/
def span_xx_to_cxw (w : ℚ × ℚ) : ℚ × ℚ := ((w.1 + w.2) / 2, w.2 - w.1)

/-- Result of `get_span_labels`: an `"l1"` result is a float tensor of
(center, width) rows, a `"ce"` result an integer tensor of
(start-index, end-index) rows. -/
inductive SpanLabels where
  | l1 : List (ℚ × ℚ) → SpanLabels
  | ce : List (Int × Int) → SpanLabels
deriving DecidableEq

/-- `CGDETR_StartEndDataset.get_span_labels` (lines 349-367).  When
`len(windows) > max_windows`, `random.shuffle(windows)` reorders the caller's
list object in place before the slice `windows[:max_windows]` rebinds the local
name; the shuffle outcome is the explicit `shuffled` parameter (a permutation
of `windows`).  Besides the label tensor the model returns the final contents
of the list object the caller passed in, so that the in-place effect on the
stored annotation record is visible.  `none` models the `NotImplementedError`
raised for an unknown `span_loss_type`. -/
def get_span_labels (span_loss_type : String) (max_windows : Nat) (clip_len : ℚ)
    (windows shuffled : List (ℚ × ℚ)) (ctx_l : Nat) :
    Option (SpanLabels × List (ℚ × ℚ)) :=
  let stored := if max_windows < windows.length then shuffled else windows
  let used := if max_windows < windows.length then shuffled.take max_windows else windows
  if span_loss_type = "l1" then
    some (SpanLabels.l1 (used.map (fun w =>
      span_xx_to_cxw (w.1 / (ctx_l * clip_len), w.2 / (ctx_l * clip_len)))), stored)
  else if span_loss_type = "ce" then
    some (SpanLabels.ce (used.map (fun w =>
      (pyInt (w.1 / clip_len), min (pyInt (w.2 / clip_len)) ctx_l - 1))), stored)
  else none

/-- Claim C1: with `span_loss_type = "l1"` and at most `max_windows` windows,
`get_span_labels` returns one row per window, in order, of the form
(center, width) with center = (st + ed) / (2 * ctx_l * clip_len) and
width = (ed - st) / (ctx_l * clip_len); the stored window list is untouched. -/
theorem C1_get_span_labels_l1 (max_windows : Nat) (clip_len : ℚ)
    (windows shuffled : List (ℚ × ℚ)) (ctx_l : Nat)
    (h : windows.length ≤ max_windows) :
    get_span_labels "l1" max_windows clip_len windows shuffled ctx_l =
      some (SpanLabels.l1 (windows.map (fun w =>
        ((w.1 + w.2) / (2 * ctx_l * clip_len), (w.2 - w.1) / (ctx_l * clip_len)))),
        windows) := by
  have hnot : ¬ max_windows < windows.length := not_lt.mpr h
  have key : ∀ w : ℚ × ℚ,
      span_xx_to_cxw (w.1 / (ctx_l * clip_len), w.2 / (ctx_l * clip_len)) =
        ((w.1 + w.2) / (2 * ctx_l * clip_len), (w.2 - w.1) / (ctx_l * clip_len)) := by
    intro w
    unfold span_xx_to_cxw
    simp only [Prod.mk.injEq]
    constructor
    · rw [div_add_div_same, div_div,
        show ((ctx_l : ℚ) * clip_len) * 2 = 2 * ctx_l * clip_len from by ring]
    · rw [div_sub_div_same]
  unfold get_span_labels
  simp [hnot, key]

/-- Witness for C1 at the docstring's example window [26, 36] with
clip_len = 2, ctx_l = 75. -/
theorem C1_get_span_labels_l1_witness :
    get_span_labels "l1" 5 2 [(26, 36)] [] 75 =
      some (SpanLabels.l1 [(31/150, 1/15)], [(26, 36)]) := by
  have h := C1_get_span_labels_l1 5 2 [(26, 36)] [] 75 (by decide)
  rw [h]
  norm_num

/-- A concrete six-window `relevant_windows` list for a record of a dataset
built with the default `max_windows = 5`. -/
def exWindows : List (ℚ × ℚ) := [(0, 1), (1, 2), (2, 3), (3, 4), (4, 5), (5, 6)]

/-- Claim C3 (divergence): with six relevant windows and `max_windows = 5`,
`get_span_labels` shuffles the record's `relevant_windows` list in place, so
`__getitem__` can leave `self.data[index]` changed: the reversed order is a
possible shuffle outcome, and after the call the stored list holds it. -/
theorem C3_getitem_mutates_record :
    exWindows.reverse.Perm exWindows ∧
    (get_span_labels "l1" 5 2 exWindows exWindows.reverse 75).map (fun r => r.2) =
      some exWindows.reverse ∧
    exWindows.reverse ≠ exWindows := by
  refine ⟨by decide, by decide, by decide⟩

/-! ## Saliency labels of charades / tacos / activitynet (sub_as_query) -/

lemma intRange_length (a b : Int) : (intRange a b).length = (b - a).toNat := by
  unfold intRange
  rw [List.length_map, List.length_range]

lemma mem_intRange {a b x : Int} : x ∈ intRange a b ↔ a ≤ x ∧ x < b := by
  unfold intRange
  simp only [List.mem_map, List.mem_range]
  constructor
  · rintro ⟨k, hk, hx⟩
    omega
  · intro hx
    refine ⟨(x - a).toNat, ?_, ?_⟩ <;> omega

lemma if_lt_eq_min (a b : Int) : (if b < a then b else a) = min a b := by
  rw [min_def]
  split <;> split <;> omega

lemma pySliceOnes_length (ctx_l : Nat) (a b : Int) :
    (pySliceOnes ctx_l a b).length = ctx_l := by
  simp [pySliceOnes]

lemma pySliceOnes_getD (ctx_l : Nat) (aS aE : Int) (hS0 : 0 ≤ aS) (hSE : aS ≤ aE)
    (hEc : aE ≤ (ctx_l : Int) - 1) (j : Nat) (hj : j < ctx_l) :
    (pySliceOnes ctx_l aS (aE + 1)).getD j 0 =
      if aS ≤ (j : Int) ∧ (j : Int) ≤ aE then 1 else 0 := by
  have h1 : pySliceBound ctx_l aS = aS.toNat := by
    unfold pySliceBound
    rw [if_neg (by omega)]
    omega
  have h2 : pySliceBound ctx_l (aE + 1) = (aE + 1).toNat := by
    unfold pySliceBound
    rw [if_neg (by omega)]
    omega
  unfold pySliceOnes
  rw [getD_of_lt _ _ _ (by simpa using hj)]
  rw [List.getElem_map, List.getElem_range, h1, h2]
  by_cases hc : aS ≤ (j : Int) ∧ (j : Int) ≤ aE
  · rw [if_pos (by omega), if_pos hc]
  · rw [if_neg (by omega), if_neg hc]

/-- `CGDETR_StartEndDataset.get_saliency_labels_sub_as_query` (lines 192-217) at
its call sites (`max_n = 2`; for `dset_name = 'nlq'` the branch `[gt_st] * 2`
produces the same list `[gt_st, gt_st]` as the non-nlq branch and is not
distinguished).  `sample` models `random.sample`, returning `none` when it
raises; the `try/except` around the negative sampling falls back to the
positive indices. -/
def get_saliency_labels_sub_as_query (sample : List Int → Nat → Option (List Int))
    (st ed duration : ℚ) (ctx_l : Nat) :
    Option (List Int × List Int × List ℚ) :=
  let clip_len := duration / ctx_l
  let gt_st0 : Int := pyInt (st / clip_len)
  let gt_ed : Int := max 0 (min (pyInt (ed / clip_len)) ctx_l - 1)
  let gt_st : Int := if gt_ed < gt_st0 then gt_ed else gt_st0
  let posOpt := if gt_st ≠ gt_ed then sample (intRange gt_st (gt_ed + 1)) 2
                else some [gt_st, gt_st]
  match posOpt with
  | none => none
  | some pos =>
    let neg := (sample (intRange 0 gt_st ++ intRange (gt_ed + 1) ctx_l) 2).getD pos
    some (pos, neg, pySliceOnes ctx_l gt_st (gt_ed + 1))

/-- Claim C5: for every ground-truth window [st, ed] (with 0 ≤ st ≤ ed),
duration > 0 and ctx_l > 0, `get_saliency_labels_sub_as_query` returns a
per-clip score array of length ctx_l equal to 1 exactly at clip indices gt_st
through gt_ed (with gt_ed = max(0, min(floor(ed / clip_len), ctx_l) - 1),
gt_st = min(floor(st / clip_len), gt_ed), clip_len = duration / ctx_l) and 0
elsewhere, and every returned positive clip index lies in [gt_st, gt_ed]. -/
theorem C5_sub_as_query (sample : List Int → Nat → Option (List Int))
    (st ed duration : ℚ) (ctx_l : Nat)
    (hdur : 0 < duration) (hctx : 0 < ctx_l) (hst : 0 ≤ st) (hsted : st ≤ ed)
    (hmem : ∀ pool k l, sample pool k = some l → ∀ x ∈ l, x ∈ pool)
    (hsome : ∀ pool k, k ≤ pool.length → (sample pool k).isSome) :
    ∃ pos neg arr,
      get_saliency_labels_sub_as_query sample st ed duration ctx_l =
        some (pos, neg, arr) ∧
      arr.length = ctx_l ∧
      (let clip_len := duration / (ctx_l : ℚ)
       let gtEd : Int := max 0 (min ⌊ed / clip_len⌋ (ctx_l : Int) - 1)
       let gtSt : Int := min ⌊st / clip_len⌋ gtEd
       (∀ j : Nat, j < ctx_l →
         arr.getD j 0 = if gtSt ≤ (j : Int) ∧ (j : Int) ≤ gtEd then 1 else 0) ∧
       (∀ p ∈ pos, gtSt ≤ p ∧ p ≤ gtEd)) := by
  have hctxQ : (0 : ℚ) < (ctx_l : ℚ) := by exact_mod_cast hctx
  have hcl : 0 < duration / (ctx_l : ℚ) := div_pos hdur hctxQ
  have hstq : 0 ≤ st / (duration / (ctx_l : ℚ)) := div_nonneg hst hcl.le
  have hedq : 0 ≤ ed / (duration / (ctx_l : ℚ)) := div_nonneg (hst.trans hsted) hcl.le
  have hpySt : pyInt (st / (duration / (ctx_l : ℚ))) = ⌊st / (duration / (ctx_l : ℚ))⌋ :=
    if_pos hstq
  have hpyEd : pyInt (ed / (duration / (ctx_l : ℚ))) = ⌊ed / (duration / (ctx_l : ℚ))⌋ :=
    if_pos hedq
  have hA0 : 0 ≤ ⌊st / (duration / (ctx_l : ℚ))⌋ := Int.floor_nonneg.mpr hstq
  have h1ctx : (1 : Int) ≤ (ctx_l : Int) := by exact_mod_cast hctx
  have hE0 : (0 : Int) ≤ max 0 (min ⌊ed / (duration / (ctx_l : ℚ))⌋ (ctx_l : Int) - 1) :=
    le_max_left _ _
  have hEc : max 0 (min ⌊ed / (duration / (ctx_l : ℚ))⌋ (ctx_l : Int) - 1) ≤ (ctx_l : Int) - 1 := by
    refine max_le (by omega) ?_
    have := min_le_right ⌊ed / (duration / (ctx_l : ℚ))⌋ ((ctx_l : Int))
    omega
  have hS0 : 0 ≤ min ⌊st / (duration / (ctx_l : ℚ))⌋
      (max 0 (min ⌊ed / (duration / (ctx_l : ℚ))⌋ (ctx_l : Int) - 1)) := le_min hA0 hE0
  have hSE : min ⌊st / (duration / (ctx_l : ℚ))⌋
      (max 0 (min ⌊ed / (duration / (ctx_l : ℚ))⌋ (ctx_l : Int) - 1)) ≤
      max 0 (min ⌊ed / (duration / (ctx_l : ℚ))⌋ (ctx_l : Int) - 1) := min_le_right _ _
  unfold get_saliency_labels_sub_as_query
  simp only [hpySt, hpyEd, if_lt_eq_min]
  by_cases hq : min ⌊st / (duration / (ctx_l : ℚ))⌋
      (max 0 (min ⌊ed / (duration / (ctx_l : ℚ))⌋ (ctx_l : Int) - 1)) =
      max 0 (min ⌊ed / (duration / (ctx_l : ℚ))⌋ (ctx_l : Int) - 1)
  · rw [if_neg (not_not_intro hq)]
    refine ⟨_, _, _, rfl, pySliceOnes_length _ _ _, ?_, ?_⟩
    · intro j hj
      exact pySliceOnes_getD _ _ _ hS0 hSE hEc j hj
    · intro p hp
      simp only [List.mem_cons, List.not_mem_nil, or_false] at hp
      rcases hp with rfl | rfl <;> exact ⟨le_refl _, hSE⟩
  · rw [if_pos hq]
    have hlt : min ⌊st / (duration / (ctx_l : ℚ))⌋
        (max 0 (min ⌊ed / (duration / (ctx_l : ℚ))⌋ (ctx_l : Int) - 1)) <
        max 0 (min ⌊ed / (duration / (ctx_l : ℚ))⌋ (ctx_l : Int) - 1) :=
      lt_of_le_of_ne hSE hq
    have hpool : 2 ≤ (intRange (min ⌊st / (duration / (ctx_l : ℚ))⌋
        (max 0 (min ⌊ed / (duration / (ctx_l : ℚ))⌋ (ctx_l : Int) - 1)))
        ((max 0 (min ⌊ed / (duration / (ctx_l : ℚ))⌋ (ctx_l : Int) - 1)) + 1)).length := by
      rw [intRange_length]
      omega
    obtain ⟨l, hl⟩ := Option.isSome_iff_exists.mp (hsome _ 2 hpool)
    rw [hl]
    refine ⟨_, _, _, rfl, pySliceOnes_length _ _ _, ?_, ?_⟩
    · intro j hj
      exact pySliceOnes_getD _ _ _ hS0 hSE hEc j hj
    · intro p hp
      have := hmem _ _ _ hl p hp
      rw [mem_intRange] at this
      exact ⟨this.1, by omega⟩

/-- Witness for C5: a concrete charades-style call (window [26, 36], duration
150, 75 clips) with a concrete valid sampler. -/
theorem C5_sub_as_query_witness :
    ∃ pos neg arr,
      get_saliency_labels_sub_as_query takeSample 26 36 150 75 =
        some (pos, neg, arr) ∧
      arr.length = 75 ∧
      (let clip_len := (150 : ℚ) / ((75 : Nat) : ℚ)
       let gtEd : Int := max 0 (min ⌊(36 : ℚ) / clip_len⌋ ((75 : Nat) : Int) - 1)
       let gtSt : Int := min ⌊(26 : ℚ) / clip_len⌋ gtEd
       (∀ j : Nat, j < 75 →
         arr.getD j 0 = if gtSt ≤ (j : Int) ∧ (j : Int) ≤ gtEd then 1 else 0) ∧
       (∀ p ∈ pos, gtSt ≤ p ∧ p ≤ gtEd)) :=
  C5_sub_as_query takeSample 26 36 150 75 (by norm_num) (by norm_num)
    (by norm_num) (by norm_num) takeSample_mem takeSample_isSome

/-! ## Saliency labels of qvhighlight (get_saliency_labels_all) -/

/-- The effective numpy index for an array of length `n`: a negative index
counts from the end. -/
def pyEffIdx (n : Nat) (i : Int) : Int := if i < 0 then i + n else i

/-- Numpy element assignment `arr[i] = v`; `none` models the `IndexError`
raised when the effective index is out of bounds. -/
def npSet (arr : List ℚ) (i : Int) (v : ℚ) : Option (List ℚ) :=
  if 0 ≤ pyEffIdx arr.length i ∧ pyEffIdx arr.length i < (arr.length : Int)
  then some (arr.set (pyEffIdx arr.length i).toNat v) else none

/-- `score_array_new = np.zeros(ctx_l + 1); score_array_new[:ctx_l] = score_array`
(lines 274-276): the grown array has length `ctx_l + 1` regardless of the clip
id that triggered the growth.  The slice `score_array_new[:ctx_l]` has length
`ctx_l`, so the assignment broadcasts only when `score_array` has exactly
length `ctx_l`; on an already-grown array (length `ctx_l + 1`) numpy raises
`ValueError` (cannot broadcast), modelled by `none`. -/
def growScoreArray (ctx_l : Nat) (arr : List ℚ) : Option (List ℚ) :=
  if arr.length = ctx_l then some (arr ++ [0]) else none

/-- The score-array construction loop of `get_saliency_labels_all`
(lines 271-277): starting from `np.zeros(ctx_l)`, for each position `idx` the
array is first replaced by the grown array when `rel_clip_ids[idx] >= ctx_l`
(which can itself raise), and then
`score_array[rel_clip_ids[idx]] = agg_scores[idx]` is executed. -/
def buildScoreArray (ctx_l : Nat) (agg : List ℚ) :
    List Int → Nat → List ℚ → Option (List ℚ)
  | [], _, arr => some arr
  | cid :: rest, idx, arr =>
    match (if (ctx_l : Int) ≤ cid then growScoreArray ctx_l arr else some arr) with
    | none => none
    | some arr1 =>
      match agg[idx]? with
      | none => none
      | some a =>
        match npSet arr1 cid a with
        | none => none
        | some arr2 => buildScoreArray ctx_l agg rest (idx + 1) arr2

lemma getD_set_ne (l : List ℚ) (m j : Nat) (v : ℚ) (h : m ≠ j) :
    (l.set m v).getD j 0 = l.getD j 0 := by
  simp [List.getD_eq_getElem?_getD, List.getElem?_set_ne h]

lemma getD_set_self (l : List ℚ) (m : Nat) (v : ℚ) (h : m < l.length) :
    (l.set m v).getD m 0 = v := by
  simp [List.getD_eq_getElem?_getD, List.getElem?_set_self h]

lemma getD_replicate_zero (n j : Nat) : (List.replicate n (0 : ℚ)).getD j 0 = 0 := by
  simp [List.getD_eq_getElem?_getD, List.getElem?_replicate]
  split <;> rfl

lemma npSet_inbounds (arr : List ℚ) (cid : Int) (v : ℚ)
    (h0 : 0 ≤ cid) (h1 : cid < (arr.length : Int)) :
    npSet arr cid v = some (arr.set cid.toNat v) := by
  have heff : pyEffIdx arr.length cid = cid := by
    unfold pyEffIdx
    rw [if_neg (by omega)]
  unfold npSet
  rw [heff, if_pos ⟨h0, h1⟩]

/-- In-bounds, duplicate-free characterization of the score-array loop. -/
lemma buildScoreArray_inbounds (ctx_l : Nat) (agg : List ℚ) (ids : List Int) :
    ∀ (k : Nat) (arr : List ℚ),
    arr.length = ctx_l →
    (∀ i ∈ ids, 0 ≤ i ∧ i < (ctx_l : Int)) →
    ids.Nodup →
    k + ids.length ≤ agg.length →
    ∃ out, buildScoreArray ctx_l agg ids k arr = some out ∧ out.length = ctx_l ∧
      (∀ i : Nat, ∀ h : i < ids.length,
        out.getD (ids.get ⟨i, h⟩).toNat 0 = agg.getD (k + i) 0) ∧
      (∀ j : Nat, (∀ i ∈ ids, i ≠ (j : Int)) → out.getD j 0 = arr.getD j 0) := by
  induction ids with
  | nil =>
    intro k arr harr hb hnd hagg
    exact ⟨arr, rfl, harr, by intro i h; simp at h, fun j _ => rfl⟩
  | cons cid rest ih =>
    intro k arr harr hb hnd hagg
    have hcid := hb cid (List.mem_cons_self _ _)
    have hgrow : ¬ (ctx_l : Int) ≤ cid := by omega
    have hkagg : k < agg.length := by
      simp only [List.length_cons] at hagg
      omega
    have hget : agg[k]? = some agg[k] := List.getElem?_eq_getElem hkagg
    have hset : npSet arr cid agg[k] = some (arr.set cid.toNat agg[k]) :=
      npSet_inbounds arr cid agg[k] hcid.1 (by omega)
    have hlen2 : (arr.set cid.toNat agg[k]).length = ctx_l := by simp [harr]
    have hb2 : ∀ i ∈ rest, 0 ≤ i ∧ i < (ctx_l : Int) :=
      fun i hi => hb i (List.mem_cons_of_mem _ hi)
    have hnotmem : cid ∉ rest := (List.nodup_cons.mp hnd).1
    have hnd2 : rest.Nodup := (List.nodup_cons.mp hnd).2
    have hagg2 : (k + 1) + rest.length ≤ agg.length := by
      simp only [List.length_cons] at hagg
      omega
    obtain ⟨out, hout, holen, hvals, huntouched⟩ :=
      ih (k + 1) (arr.set cid.toNat agg[k]) hlen2 hb2 hnd2 hagg2
    refine ⟨out, ?_, holen, ?_, ?_⟩
    · simp only [buildScoreArray, if_neg hgrow, hget, hset]
      exact hout
    · intro i h
      match i with
      | 0 =>
        have hrest : ∀ x ∈ rest, x ≠ ((cid.toNat : Nat) : Int) := by
          intro x hx
          have : (cid.toNat : Int) = cid := Int.toNat_of_nonneg hcid.1
          rw [this]
          intro hxe
          exact hnotmem (hxe ▸ hx)
        have h1 := huntouched cid.toNat hrest
        have h2 : (arr.set cid.toNat agg[k]).getD cid.toNat 0 = agg[k] :=
          getD_set_self arr cid.toNat agg[k] (by omega)
        show out.getD cid.toNat 0 = agg.getD (k + 0) 0
        rw [h1, h2, Nat.add_zero, getD_of_lt _ _ _ hkagg]
      | Nat.succ i =>
        have h' : i < rest.length := by
          simp only [List.length_cons] at h
          omega
        have hv := hvals i h'
        show out.getD ((rest.get ⟨i, h'⟩).toNat) 0 = agg.getD (k + (i + 1)) 0
        rw [show k + (i + 1) = (k + 1) + i from by omega]
        exact hv
    · intro j hj
      have h1 := huntouched j (fun i hi => hj i (List.mem_cons_of_mem _ hi))
      rw [h1]
      refine getD_set_ne arr cid.toNat j agg[k] ?_
      intro hcj
      have : (cid.toNat : Int) = cid := Int.toNat_of_nonneg hcid.1
      exact hj cid (List.mem_cons_self _ _) (by omega)

lemma insKey_length (key : Nat → ℚ) (i : Nat) (l : List Nat) :
    (insKey key i l).length = l.length + 1 := by
  induction l with
  | nil => rfl
  | cons j rest ih =>
    by_cases h : key i < key j <;> simp [insKey, h, ih]

lemma argsort_length (scores : List ℚ) : (argsort scores).length = scores.length := by
  unfold argsort
  have haux : ∀ (l : List Nat) (acc : List Nat),
      (l.foldr (insKey (fun i => scores.getD i 0)) acc).length = l.length + acc.length := by
    intro l
    induction l with
    | nil => intro acc; simp
    | cons a t ih =>
      intro acc
      simp only [List.foldr_cons, insKey_length, ih, List.length_cons]
      omega
  simpa using haux (List.range scores.length) []

/-- `CGDETR_StartEndDataset.get_saliency_labels_all` (lines 255-297) at its only
call site (`max_n = 1`, `add_easy_negative = True`).  `sample` models
`random.sample` (`none` when it raises); the easy-negative pool
`list(set(range(ctx_l)) - set(rel_clip_ids))` is modelled in ascending order
(CPython's set iteration order is irrelevant here since the pool is only
sampled from). -/
def get_saliency_labels_all (sample : List Int → Nat → Option (List Int))
    (rel_clip_ids : List Int) (scores : List (List ℚ)) (ctx_l : Nat) :
    Option (List Int × List Int × List ℚ) :=
  let agg := scores.map List.sum
  let sort_indices := argsort agg
  match buildScoreArray ctx_l agg rel_clip_ids 0 (List.replicate ctx_l 0) with
  | none => none
  | some score_array =>
    let hard_pos := (lastN sort_indices 1).map
      (fun idx => min (rel_clip_ids.getD idx 0) ((ctx_l : Int) - 1))
    let hard_neg := (sort_indices.take 1).map
      (fun idx => min (rel_clip_ids.getD idx 0) ((ctx_l : Int) - 1))
    let easy_neg_pool := (intRange 0 ctx_l).filter (fun i => ! rel_clip_ids.contains i)
    let easyOpt :=
      if 1 ≤ easy_neg_pool.length then
        match sample rel_clip_ids 1, sample easy_neg_pool 1 with
        | some ep, some en => some (ep, en)
        | _, _ => none
      else some (hard_pos, hard_neg)
    match easyOpt with
    | none => none
    | some easy => some (hard_pos ++ easy.1, hard_neg ++ easy.2, score_array)

/-- Claim C2 (amended): when `rel_clip_ids` is non-empty, duplicate-free, with
every id in [0, ctx_l), and `scores` has one per-annotator list per relevant
clip, `get_saliency_labels_all` returns a score array of length ctx_l whose
entry at `rel_clip_ids[i]` is the sum of the annotator scores of clip i and
whose entry at every clip not in `rel_clip_ids` is 0, together with non-empty
positive and negative clip index lists. -/
theorem C2_saliency_all_amended (sample : List Int → Nat → Option (List Int))
    (rel_clip_ids : List Int) (scores : List (List ℚ)) (ctx_l : Nat)
    (hsome : ∀ pool k, k ≤ pool.length → (sample pool k).isSome)
    (hne : rel_clip_ids ≠ [])
    (hnd : rel_clip_ids.Nodup)
    (hbound : ∀ i ∈ rel_clip_ids, 0 ≤ i ∧ i < (ctx_l : Int))
    (hlen : scores.length = rel_clip_ids.length) :
    ∃ pos neg arr,
      get_saliency_labels_all sample rel_clip_ids scores ctx_l = some (pos, neg, arr) ∧
      arr.length = ctx_l ∧
      (∀ i : Nat, ∀ h : i < rel_clip_ids.length,
        arr.getD (rel_clip_ids.get ⟨i, h⟩).toNat 0 = (scores.getD i []).sum) ∧
      (∀ j : Nat, j < ctx_l → (j : Int) ∉ rel_clip_ids → arr.getD j 0 = 0) ∧
      pos ≠ [] ∧ neg ≠ [] := by
  obtain ⟨out, hout, holen, hvals, huntouched⟩ :=
    buildScoreArray_inbounds ctx_l (scores.map List.sum) rel_clip_ids 0
      (List.replicate ctx_l 0) (List.length_replicate _ _) hbound hnd
      (by simp [hlen])
  have hvals2 : ∀ i : Nat, ∀ h : i < rel_clip_ids.length,
      out.getD (rel_clip_ids.get ⟨i, h⟩).toNat 0 = (scores.getD i []).sum := by
    intro i h
    have hi : i < scores.length := by omega
    rw [hvals i h, Nat.zero_add, getD_of_lt _ _ _ (by simpa using hi),
      List.getElem_map, getD_of_lt _ _ _ hi]
  have huz : ∀ j : Nat, j < ctx_l → (j : Int) ∉ rel_clip_ids → out.getD j 0 = 0 := by
    intro j hj hnm
    rw [huntouched j (fun i hi hij => hnm (hij ▸ hi)), getD_replicate_zero]
  have hids_len : 0 < rel_clip_ids.length := List.length_pos.mpr hne
  have hsort_len : (argsort (scores.map List.sum)).length = rel_clip_ids.length := by
    rw [argsort_length, List.length_map, hlen]
  have hhardpos : ((lastN (argsort (scores.map List.sum)) 1).map
      (fun idx => min (rel_clip_ids.getD idx 0) ((ctx_l : Int) - 1))).length = 1 := by
    rw [List.length_map]
    unfold lastN
    rw [List.length_drop]
    omega
  have hhardposne : (lastN (argsort (scores.map List.sum)) 1).map
      (fun idx => min (rel_clip_ids.getD idx 0) ((ctx_l : Int) - 1)) ≠ [] := by
    intro hemp
    rw [hemp] at hhardpos
    simp at hhardpos
  have hhardneg : (((argsort (scores.map List.sum)).take 1).map
      (fun idx => min (rel_clip_ids.getD idx 0) ((ctx_l : Int) - 1))).length = 1 := by
    rw [List.length_map, List.length_take]
    omega
  have hhardnegne : ((argsort (scores.map List.sum)).take 1).map
      (fun idx => min (rel_clip_ids.getD idx 0) ((ctx_l : Int) - 1)) ≠ [] := by
    intro hemp
    rw [hemp] at hhardneg
    simp at hhardneg
  simp only [get_saliency_labels_all, hout]
  by_cases hpool : 1 ≤ ((intRange 0 ctx_l).filter (fun i => ! rel_clip_ids.contains i)).length
  · obtain ⟨ep, hep⟩ := Option.isSome_iff_exists.mp (hsome rel_clip_ids 1 hids_len)
    obtain ⟨en, hen⟩ := Option.isSome_iff_exists.mp (hsome _ 1 hpool)
    rw [if_pos hpool, hep, hen]
    refine ⟨_, _, out, rfl, holen, hvals2, huz, ?_, ?_⟩
    · intro hemp
      exact hhardposne (List.append_eq_nil.mp hemp).1
    · intro hemp
      exact hhardnegne (List.append_eq_nil.mp hemp).1
  · rw [if_neg hpool]
    refine ⟨_, _, out, rfl, holen, hvals2, huz, ?_, ?_⟩
    · intro hemp
      exact hhardposne (List.append_eq_nil.mp hemp).1
    · intro hemp
      exact hhardnegne (List.append_eq_nil.mp hemp).1

/-- Witness for the amended C2: two distinct in-range clip ids with one
annotator score each, and a concrete valid sampler. -/
theorem C2_saliency_all_amended_witness :
    ∃ pos neg arr,
      get_saliency_labels_all takeSample [0, 1] [[1], [2]] 2 = some (pos, neg, arr) ∧
      arr.length = 2 ∧
      (∀ i : Nat, ∀ h : i < ([0, 1] : List Int).length,
        arr.getD (([0, 1] : List Int).get ⟨i, h⟩).toNat 0 =
          (([[1], [2]] : List (List ℚ)).getD i []).sum) ∧
      (∀ j : Nat, j < 2 → (j : Int) ∉ ([0, 1] : List Int) → arr.getD j 0 = 0) ∧
      pos ≠ [] ∧ neg ≠ [] :=
  C2_saliency_all_amended takeSample [0, 1] [[1], [2]] 2 takeSample_isSome
    (by decide) (by decide) (by decide) (by decide)

/-- The statement of claim C2 for one call, used to exhibit a counterexample:
if every clip id is in [0, ctx_l) and there is one score list per relevant
clip, the function returns an array whose entry at rel_clip_ids[i] is the sum
of the scores of clip i, 0 off rel_clip_ids, and non-empty pos/neg lists. -/
def C2_claimStatement (sample : List Int → Nat → Option (List Int))
    (rel_clip_ids : List Int) (scores : List (List ℚ)) (ctx_l : Nat) : Prop :=
  (∀ i ∈ rel_clip_ids, 0 ≤ i ∧ i < (ctx_l : Int)) →
  scores.length = rel_clip_ids.length →
  ∃ pos neg arr,
    get_saliency_labels_all sample rel_clip_ids scores ctx_l = some (pos, neg, arr) ∧
    arr.length = ctx_l ∧
    (∀ i : Nat, ∀ h : i < rel_clip_ids.length,
      arr.getD (rel_clip_ids.get ⟨i, h⟩).toNat 0 = (scores.getD i []).sum) ∧
    (∀ j : Nat, j < ctx_l → (j : Int) ∉ rel_clip_ids → arr.getD j 0 = 0) ∧
    pos ≠ [] ∧ neg ≠ []

/-- Claim C2 (counterexample): with the duplicated clip id list [0, 0],
per-annotator scores [[1]] and [[2]] for its two entries and ctx_l = 1, the
returned entry at rel_clip_ids[0] is 2 (the later assignment wins), not the
sum 1 of the annotator scores of clip 0, so the claim as stated fails. -/
theorem C2_counterexample : ¬ C2_claimStatement takeSample [0, 0] [[1], [2]] 1 := by
  intro h
  obtain ⟨pos, neg, arr, heq, hlen, hval, -⟩ := h (by decide) (by decide)
  have h5 : (get_saliency_labels_all takeSample [0, 0] [[1], [2]] 1).map
      (fun r : List Int × List Int × List ℚ => r.2.2) = some [List.sum [(2 : ℚ)]] := rfl
  rw [heq] at h5
  simp only [Option.map_some', Option.some_inj] at h5
  have h0 := hval 0 (by decide)
  rw [h5] at h0
  simp [List.sum_cons, List.sum_nil] at h0

lemma buildScoreArray_isSome_small (ctx_l : Nat) (agg : List ℚ) (ids : List Int) :
    ∀ (k : Nat) (arr : List ℚ),
    ctx_l ≤ arr.length →
    (∀ i ∈ ids, 0 ≤ i ∧ i < (ctx_l : Int)) →
    k + ids.length ≤ agg.length →
    (buildScoreArray ctx_l agg ids k arr).isSome := by
  induction ids with
  | nil =>
    intro k arr _ _ _
    simp [buildScoreArray]
  | cons cid rest ih =>
    intro k arr harr hb hagg
    have hcid := hb cid (List.mem_cons_self _ _)
    have hg : ¬ (ctx_l : Int) ≤ cid := by omega
    have hkagg : k < agg.length := by
      simp only [List.length_cons] at hagg
      omega
    have hget : agg[k]? = some agg[k] := List.getElem?_eq_getElem hkagg
    have hset : npSet arr cid agg[k] = some (arr.set cid.toNat agg[k]) :=
      npSet_inbounds _ cid agg[k] hcid.1 (by omega)
    have hagg2 : (k + 1) + rest.length ≤ agg.length := by
      simp only [List.length_cons] at hagg
      omega
    simp only [buildScoreArray, if_neg hg, hget, hset]
    exact ih (k + 1) _ (by simp [harr]) (fun i hi => hb i (List.mem_cons_of_mem _ hi)) hagg2

/-- The statement of claim C9 for one call: with non-negative clip ids, a
positive ctx_l and at least one aggregated score per clip id, the score-array
construction loop never indexes out of bounds (modelled by the loop returning
`some`), including when ids are ≥ ctx_l. -/
def C9_claimStatement (rel_clip_ids : List Int) (agg : List ℚ) (ctx_l : Nat) : Prop :=
  (∀ i ∈ rel_clip_ids, 0 ≤ i) → 0 < ctx_l → rel_clip_ids.length ≤ agg.length →
  (buildScoreArray ctx_l agg rel_clip_ids 0 (List.replicate ctx_l 0)).isSome

/-- Claim C9 (counterexample): with ctx_l = 1 and the single clip id 2 the
array is grown only to length ctx_l + 1 = 2, so the assignment
`score_array[2] = agg_scores[0]` is out of bounds and the loop raises. -/
theorem C9_counterexample : ¬ C9_claimStatement [2] [1] 1 := by
  unfold C9_claimStatement
  decide

/-- Claim C9 (amended): the score-array construction loop completes as long as
every (non-negative) clip id is at most ctx_l and at most one clip id reaches
ctx_l: the single id equal to ctx_l triggers the growth of the array to
length ctx_l + 1 and is then in bounds, but any id greater than ctx_l still
indexes out of bounds, and a second id ≥ ctx_l makes the growth itself raise
(the slice assignment cannot broadcast a length-(ctx_l + 1) array). -/
theorem C9_buildScoreArray_inbounds_amended (rel_clip_ids : List Int) (agg : List ℚ)
    (ctx_l : Nat)
    (hbound : ∀ i ∈ rel_clip_ids, 0 ≤ i ∧ i ≤ (ctx_l : Int))
    (hcount : (rel_clip_ids.filter (fun i => decide ((ctx_l : Int) ≤ i))).length ≤ 1)
    (hlen : rel_clip_ids.length ≤ agg.length) :
    (buildScoreArray ctx_l agg rel_clip_ids 0 (List.replicate ctx_l 0)).isSome := by
  have haux : ∀ (ids : List Int), (∀ i ∈ ids, 0 ≤ i ∧ i ≤ (ctx_l : Int)) →
      ∀ (k : Nat) (arr : List ℚ),
      arr.length = ctx_l →
      (ids.filter (fun i => decide ((ctx_l : Int) ≤ i))).length ≤ 1 →
      k + ids.length ≤ agg.length →
      (buildScoreArray ctx_l agg ids k arr).isSome := by
    intro ids
    induction ids with
    | nil =>
      intro _ k arr _ _ _
      simp [buildScoreArray]
    | cons cid rest ih =>
      intro hb k arr harr hcnt hagg
      have hcid := hb cid (List.mem_cons_self _ _)
      have hkagg : k < agg.length := by
        simp only [List.length_cons] at hagg
        omega
      have hget : agg[k]? = some agg[k] := List.getElem?_eq_getElem hkagg
      have hagg2 : (k + 1) + rest.length ≤ agg.length := by
        simp only [List.length_cons] at hagg
        omega
      have hb2 : ∀ i ∈ rest, 0 ≤ i ∧ i ≤ (ctx_l : Int) :=
        fun i hi => hb i (List.mem_cons_of_mem _ hi)
      by_cases hg : (ctx_l : Int) ≤ cid
      · have hgrow : growScoreArray ctx_l arr = some (arr ++ [0]) := if_pos harr
        have hlen1 : (arr ++ [0]).length = ctx_l + 1 := by simp [harr]
        have hset : npSet (arr ++ [0]) cid agg[k] =
            some ((arr ++ [0]).set cid.toNat agg[k]) :=
          npSet_inbounds _ cid agg[k] hcid.1 (by omega)
        have hrest : ∀ i ∈ rest, 0 ≤ i ∧ i < (ctx_l : Int) := by
          intro i hi
          refine ⟨(hb2 i hi).1, ?_⟩
          rcases lt_or_le i ((ctx_l : Int)) with h3 | h3
          · exact h3
          · exfalso
            have hmem : i ∈ rest.filter (fun j => decide ((ctx_l : Int) ≤ j)) :=
              List.mem_filter.mpr ⟨hi, by simpa using h3⟩
            have h4 : 1 ≤ (rest.filter (fun j => decide ((ctx_l : Int) ≤ j))).length :=
              List.length_pos.mpr (List.ne_nil_of_mem hmem)
            have h5 : ((cid :: rest).filter (fun j => decide ((ctx_l : Int) ≤ j))).length =
                (rest.filter (fun j => decide ((ctx_l : Int) ≤ j))).length + 1 := by
              simp [List.filter_cons, hg]
            omega
        simp only [buildScoreArray, if_pos hg, hgrow, hget, hset]
        exact buildScoreArray_isSome_small ctx_l agg rest (k + 1) _
          (by rw [List.length_set, hlen1]; omega) hrest hagg2
      · have hset : npSet arr cid agg[k] = some (arr.set cid.toNat agg[k]) :=
          npSet_inbounds _ cid agg[k] hcid.1 (by omega)
        have hcnt2 : (rest.filter (fun i => decide ((ctx_l : Int) ≤ i))).length ≤ 1 := by
          have h5 : (cid :: rest).filter (fun j => decide ((ctx_l : Int) ≤ j)) =
              rest.filter (fun j => decide ((ctx_l : Int) ≤ j)) := by
            simp [List.filter_cons, hg]
          rw [h5] at hcnt
          exact hcnt
        simp only [buildScoreArray, if_neg hg, hget, hset]
        exact ih hb2 (k + 1) _ (by simp [harr]) hcnt2 hagg2
  exact haux rel_clip_ids hbound 0 (List.replicate ctx_l 0)
    (List.length_replicate _ _) hcount (by omega)

/-- Witness for the amended C9: ids 0 and 2 with ctx_l = 2 (the single id
equal to ctx_l exercises the growth path once) stay in bounds. -/
theorem C9_buildScoreArray_inbounds_amended_witness :
    (buildScoreArray 2 [1, 1] [0, 2] 0 (List.replicate 2 0)).isSome :=
  C9_buildScoreArray_inbounds_amended [0, 2] [1, 1] 2 (by decide) (by decide) (by decide)

/-! ## Saliency labels of tvsum and the tvsum branch of getitem -/

/-- `CGDETR_StartEndDataset.get_saliency_labels_all_tvsum` (lines 299-321) at
its only call site (`max_n = 1`, `add_easy_negative = False`; under that
default the easy positive/negative branch — which refers to an undefined name
`rel_clip_ids` — is dead and is not modelled).  `labels` holds the per-clip
per-annotator scores, which start from 1, hence the elementwise `- 1` before
the row sum; the row sums are cut to `ctx_l` and rescaled by `/ 80 * 12`. -/
def get_saliency_labels_all_tvsum (labels : List (List ℚ)) (ctx_l : Nat) :
    List Int × List Int × List ℚ :=
  let agg_scores := (labels.map (fun row => (row.map (fun x => x - 1)).sum)).take ctx_l
  let score_array := agg_scores.map (fun s => s / 80 * 12)
  let sort_indices := argsort agg_scores
  let hard_pos := (lastN sort_indices 1).map
    (fun (idx : Nat) => min (idx : Int) ((ctx_l : Int) - 1))
  let hard_neg := (sort_indices.take 1).map
    (fun (idx : Nat) => min (idx : Int) ((ctx_l : Int) - 1))
  (hard_pos, hard_neg, score_array)

/-- The tvsum label branch of `CGDETR_StartEndDataset.__getitem__`
(lines 155-162) with video features in use: `ctx_l = len(video_feat)`, the
saliency labels are built from the record's per-annotator label matrix, and
the video features are truncated to the label length when the two lengths
differ. -/
def tvsum_getitem_branch (video_feat : List (List ℚ)) (labels : List (List ℚ)) :
    List (List ℚ) × List ℚ :=
  let ctx_l := video_feat.length
  let sal := (get_saliency_labels_all_tvsum labels ctx_l).2.2
  let vf := if sal.length ≠ video_feat.length then video_feat.take sal.length
            else video_feat
  (vf, sal)

/-- Claim C10: for the tvsum variant with video features and labels loaded, the
item's video-feature tensor and saliency label array have equal lengths after
the branch, and the saliency label array is never longer than the loaded
video features. -/
theorem C10_tvsum_video_matches_saliency (video_feat : List (List ℚ))
    (labels : List (List ℚ)) :
    (tvsum_getitem_branch video_feat labels).1.length =
      (tvsum_getitem_branch video_feat labels).2.length ∧
    (tvsum_getitem_branch video_feat labels).2.length ≤ video_feat.length := by
  have hsal : (get_saliency_labels_all_tvsum labels video_feat.length).2.2.length ≤
      video_feat.length := by
    simp only [get_saliency_labels_all_tvsum]
    rw [List.length_map, List.length_take]
    omega
  constructor
  · simp only [tvsum_getitem_branch]
    by_cases h : (get_saliency_labels_all_tvsum labels video_feat.length).2.2.length =
        video_feat.length
    · rw [if_neg (not_not_intro h)]
      exact h.symm
    · rw [if_pos h, List.length_take]
      omega
  · exact hsal

/-! ## Collation and batch preparation -/

/-- The per-example `dict(spans=...)` wrapper the collator builds for span
labels (line 428). -/
structure SpanDict where
  spans : List (ℚ × ℚ)
deriving DecidableEq, Inhabited

/-- The `model_inputs` dictionary built per example by `__getitem__`
(lines 128-185): the feature tensors, the optional label fields (present or
not depending on dataset variant and `load_labels`), and the vid/qid
metadata. -/
structure ModelInputs where
  query_feat : List (List ℚ)
  video_feat : List (List ℚ)
  span_labels : Option (List (ℚ × ℚ))
  saliency_pos_labels : Option (List Int)
  saliency_neg_labels : Option (List Int)
  saliency_all_labels : Option (List ℚ)
  relevant_clip_ids : Option (List Int)
  vid : String
  qid : Int
deriving DecidableEq, Inhabited

/-- A value of the collated batch dictionary: the Python dict holds
heterogeneous values (tuples of a padded tensor and its mask, bare tensors,
stacked LongTensors, per-example lists). -/
inductive BVal where
  | pair2d : List (List (List ℚ)) → List (List Bool) → BVal
  | pairScalar : List (List ℚ) → List (List Bool) → BVal
  | tensor2 : List (List ℚ) → BVal
  | long2d : List (List Int) → BVal
  | spans : List SpanDict → BVal
  | strs : List String → BVal
  | ids : List Int → BVal
deriving DecidableEq

/-- The collated batch dictionary: one field per possible key of
`model_inputs`; a label key is present (`some`) exactly when the first
example's dict has it. -/
structure BatchedData where
  query_feat : BVal
  video_feat : BVal
  span_labels : Option BVal
  saliency_pos_labels : Option BVal
  saliency_neg_labels : Option BVal
  saliency_all_labels : Option BVal
  relevant_clip_ids : Option BVal
  vid : BVal
  qid : BVal
deriving DecidableEq

/-- The list comprehension `[e["model_inputs"][k] for e in batch]` for one
label key: `none` models the KeyError raised when a later example misses the
key. -/
def getAllValues {β : Type} (get : ModelInputs → Option β) :
    List ModelInputs → Option (List β)
  | [] => some []
  | e :: rest =>
    match get e, getAllValues get rest with
    | some v, some vs => some (v :: vs)
    | _, _ => none

/-- One label key of the collator: the key is collated only when the first
example has it (`model_inputs_keys = batch[0]["model_inputs"].keys()`, line
424), and then every example's value is required — a missing value in a later
example is the source's KeyError, modelled by `none`. -/
def collateKey {β γ : Type} (present : Bool) (batch : List ModelInputs)
    (get : ModelInputs → Option β) (mk : List β → γ) : Option (Option γ) :=
  if present then
    match getAllValues get batch with
    | none => none
    | some l => some (some (mk l))
  else some none

/-- `cg_detr_start_end_collate` (lines 421-445).  The key set is taken from the
first example (`batch[0]["model_inputs"].keys()`); `none` models the
`IndexError` on an empty batch and the `KeyError` when a key of the first
example is missing from a later one.  `query_feat` and `video_feat` keep the
whole `pad_sequences_1d` result (padded tensor, mask); for
`saliency_all_labels` only `pad_data` is kept — the `mask_data` computed on
line 434 is discarded on line 435; `relevant_clip_ids` (qvhighlight) falls
through to the generic padding branch as float data; span labels are wrapped
per example; pos/neg saliency indices are stacked into a LongTensor; vid/qid
pass through as lists. -/
def cg_detr_start_end_collate (batch : List ModelInputs) : Option BatchedData :=
  match batch with
  | [] => none
  | e0 :: _ =>
    match collateKey e0.span_labels.isSome batch ModelInputs.span_labels
        (fun l => BVal.spans (l.map (fun s => ⟨s⟩))),
      collateKey e0.saliency_pos_labels.isSome batch ModelInputs.saliency_pos_labels
        (fun l => BVal.long2d l),
      collateKey e0.saliency_neg_labels.isSome batch ModelInputs.saliency_neg_labels
        (fun l => BVal.long2d l),
      collateKey e0.saliency_all_labels.isSome batch ModelInputs.saliency_all_labels
        (fun l => BVal.tensor2 (pad_sequences_1d l 0).1),
      collateKey e0.relevant_clip_ids.isSome batch ModelInputs.relevant_clip_ids
        (fun l => BVal.pairScalar
          (pad_sequences_1d (l.map (fun r => r.map (fun (i : Int) => (i : ℚ)))) 0).1
          (pad_sequences_1d (l.map (fun r => r.map (fun (i : Int) => (i : ℚ)))) 0).2) with
    | some spanV, some posV, some negV, some salV, some relV =>
      some {
        query_feat := BVal.pair2d
          (pad_sequences_1d (batch.map ModelInputs.query_feat) (zeroRow e0.query_feat)).1
          (pad_sequences_1d (batch.map ModelInputs.query_feat) (zeroRow e0.query_feat)).2
        video_feat := BVal.pair2d
          (pad_sequences_1d (batch.map ModelInputs.video_feat) (zeroRow e0.video_feat)).1
          (pad_sequences_1d (batch.map ModelInputs.video_feat) (zeroRow e0.video_feat)).2
        span_labels := spanV
        saliency_pos_labels := posV
        saliency_neg_labels := negV
        saliency_all_labels := salV
        relevant_clip_ids := relV
        vid := BVal.strs (batch.map ModelInputs.vid)
        qid := BVal.ids (batch.map ModelInputs.qid)
      }
    | _, _, _, _, _ => none

/-- The padded rows `P` extend the sequences of `seqs` to the maximum sequence
length of the batch, one row per sequence, preserving each sequence as a
prefix. -/
def paddedRowsOK (seqs P : List (List α)) : Prop :=
  P.length = seqs.length ∧
  ∀ i : Nat, i < seqs.length →
    (P.getD i []).length = maxLen seqs ∧
    (P.getD i []).take (seqs.getD i []).length = seqs.getD i []

/-- `M` marks exactly the valid (un-padded) positions of every sequence. -/
def maskOK (seqs : List (List α)) (M : List (List Bool)) : Prop :=
  M.length = seqs.length ∧
  ∀ i : Nat, i < seqs.length →
    (M.getD i []).length = maxLen seqs ∧
    ∀ j : Nat, j < maxLen seqs →
      ((M.getD i []).getD j false = true ↔ j < (seqs.getD i []).length)

lemma length_le_maxLen {seqs : List (List α)} {s : List α} (h : s ∈ seqs) :
    s.length ≤ maxLen seqs := by
  induction seqs with
  | nil => cases h
  | cons t rest ih =>
    rcases List.mem_cons.mp h with h | h
    · rw [h]
      exact le_max_left _ _
    · exact (ih h).trans (le_max_right _ _)

lemma pad_sequences_1d_rowsOK (seqs : List (List α)) (p : α) :
    paddedRowsOK seqs (pad_sequences_1d seqs p).1 := by
  constructor
  · simp [pad_sequences_1d]
  · intro i hi
    have hmem : seqs.getD i [] ∈ seqs := by
      rw [getD_of_lt _ _ _ hi]
      exact List.getElem_mem hi
    have hle := length_le_maxLen hmem
    have hP : ((pad_sequences_1d seqs p).1).getD i [] =
        seqs.getD i [] ++ List.replicate (maxLen seqs - (seqs.getD i []).length) p := by
      simp only [pad_sequences_1d]
      rw [getD_of_lt _ _ _ (by simpa using hi), List.getElem_map, getD_of_lt _ _ _ hi]
    rw [hP]
    constructor
    · rw [List.length_append, List.length_replicate]
      omega
    · exact List.take_left _ _

lemma pad_sequences_1d_maskOK (seqs : List (List α)) (p : α) :
    maskOK seqs (pad_sequences_1d seqs p).2 := by
  constructor
  · simp [pad_sequences_1d]
  · intro i hi
    have hmem : seqs.getD i [] ∈ seqs := by
      rw [getD_of_lt _ _ _ hi]
      exact List.getElem_mem hi
    have hle := length_le_maxLen hmem
    have hM : ((pad_sequences_1d seqs p).2).getD i [] =
        List.replicate (seqs.getD i []).length true ++
          List.replicate (maxLen seqs - (seqs.getD i []).length) false := by
      simp only [pad_sequences_1d]
      rw [getD_of_lt _ _ _ (by simpa using hi), List.getElem_map, getD_of_lt _ _ _ hi]
    rw [hM]
    have hlen : (List.replicate (seqs.getD i []).length true ++
        List.replicate (maxLen seqs - (seqs.getD i []).length) false).length =
        maxLen seqs := by
      rw [List.length_append, List.length_replicate, List.length_replicate]
      omega
    refine ⟨hlen, ?_⟩
    intro j hj
    rw [List.getD_eq_getElem?_getD, List.getElem?_append]
    by_cases hjs : j < (seqs.getD i []).length
    · rw [if_pos (by simpa using hjs), List.getElem?_replicate, if_pos hjs]
      simp only [Option.getD_some, true_iff]
      simpa using hjs
    · rw [if_neg (by simpa using hjs), List.getElem?_replicate,
        if_pos (by simp only [List.length_replicate]; omega)]
      simp only [Option.getD_some, Bool.false_eq_true, false_iff, not_lt]
      exact Nat.le_of_not_lt (by simpa using hjs)

/-- Every label key present in the first example is present in every example
of the batch: the source collator evaluates `e["model_inputs"][k]` for every
key of `batch[0]`, so a batch breaking this raises KeyError (all batches
produced by `__getitem__` under a fixed dataset configuration satisfy it). -/
def uniformKeys (e0 : ModelInputs) (batch : List ModelInputs) : Prop :=
  ∀ e ∈ batch,
    (e0.span_labels.isSome → e.span_labels.isSome) ∧
    (e0.saliency_pos_labels.isSome → e.saliency_pos_labels.isSome) ∧
    (e0.saliency_neg_labels.isSome → e.saliency_neg_labels.isSome) ∧
    (e0.saliency_all_labels.isSome → e.saliency_all_labels.isSome) ∧
    (e0.relevant_clip_ids.isSome → e.relevant_clip_ids.isSome)

lemma getAllValues_eq_map {β : Type} (get : ModelInputs → Option β) (g : ModelInputs → β) :
    ∀ (batch : List ModelInputs), (∀ e ∈ batch, get e = some (g e)) →
    getAllValues get batch = some (batch.map g) := by
  intro batch
  induction batch with
  | nil => intro _; rfl
  | cons e rest ih =>
    intro h
    simp only [getAllValues, h e (List.mem_cons_self _ _),
      ih (fun x hx => h x (List.mem_cons_of_mem _ hx)), List.map_cons]

lemma collateKey_uniform {β γ : Type} (b : Bool) (batch : List ModelInputs)
    (get : ModelInputs → Option β) (d : β) (mk : List β → γ)
    (h : b = true → ∀ e ∈ batch, (get e).isSome) :
    collateKey b batch get mk =
      some (if b then some (mk (batch.map (fun e => (get e).getD d))) else none) := by
  cases b
  · rfl
  · have hall : ∀ e ∈ batch, get e = some ((get e).getD d) := by
      intro e he
      rcases Option.isSome_iff_exists.mp (h rfl e he) with ⟨v, hv⟩
      rw [hv]
      rfl
    simp [collateKey, getAllValues_eq_map get (fun e => (get e).getD d) batch hall]

/-- Under uniform key presence the collator succeeds and its per-key values
can be spelled out. -/
lemma collate_eq (e0 : ModelInputs) (tl : List ModelInputs)
    (huni : uniformKeys e0 (e0 :: tl)) :
    cg_detr_start_end_collate (e0 :: tl) = some {
      query_feat := BVal.pair2d
        (pad_sequences_1d ((e0 :: tl).map ModelInputs.query_feat) (zeroRow e0.query_feat)).1
        (pad_sequences_1d ((e0 :: tl).map ModelInputs.query_feat) (zeroRow e0.query_feat)).2
      video_feat := BVal.pair2d
        (pad_sequences_1d ((e0 :: tl).map ModelInputs.video_feat) (zeroRow e0.video_feat)).1
        (pad_sequences_1d ((e0 :: tl).map ModelInputs.video_feat) (zeroRow e0.video_feat)).2
      span_labels := if e0.span_labels.isSome then
          some (BVal.spans ((e0 :: tl).map (fun e => ⟨e.span_labels.getD []⟩)))
        else none
      saliency_pos_labels := if e0.saliency_pos_labels.isSome then
          some (BVal.long2d ((e0 :: tl).map (fun e => e.saliency_pos_labels.getD [])))
        else none
      saliency_neg_labels := if e0.saliency_neg_labels.isSome then
          some (BVal.long2d ((e0 :: tl).map (fun e => e.saliency_neg_labels.getD [])))
        else none
      saliency_all_labels := if e0.saliency_all_labels.isSome then
          some (BVal.tensor2 (pad_sequences_1d
            ((e0 :: tl).map (fun e => e.saliency_all_labels.getD [])) 0).1)
        else none
      relevant_clip_ids := if e0.relevant_clip_ids.isSome then
          some (BVal.pairScalar
            (pad_sequences_1d ((e0 :: tl).map (fun e =>
              (e.relevant_clip_ids.getD []).map (fun (i : Int) => (i : ℚ)))) 0).1
            (pad_sequences_1d ((e0 :: tl).map (fun e =>
              (e.relevant_clip_ids.getD []).map (fun (i : Int) => (i : ℚ)))) 0).2)
        else none
      vid := BVal.strs ((e0 :: tl).map ModelInputs.vid)
      qid := BVal.ids ((e0 :: tl).map ModelInputs.qid)
    } := by
  have h1 := collateKey_uniform e0.span_labels.isSome (e0 :: tl) ModelInputs.span_labels []
    (fun l => BVal.spans (l.map (fun s => ⟨s⟩)))
    (fun hb e he => (huni e he).1 hb)
  have h2 := collateKey_uniform e0.saliency_pos_labels.isSome (e0 :: tl)
    ModelInputs.saliency_pos_labels [] (fun l => BVal.long2d l)
    (fun hb e he => (huni e he).2.1 hb)
  have h3 := collateKey_uniform e0.saliency_neg_labels.isSome (e0 :: tl)
    ModelInputs.saliency_neg_labels [] (fun l => BVal.long2d l)
    (fun hb e he => (huni e he).2.2.1 hb)
  have h4 := collateKey_uniform e0.saliency_all_labels.isSome (e0 :: tl)
    ModelInputs.saliency_all_labels [] (fun l => BVal.tensor2 (pad_sequences_1d l 0).1)
    (fun hb e he => (huni e he).2.2.2.1 hb)
  have h5 := collateKey_uniform e0.relevant_clip_ids.isSome (e0 :: tl)
    ModelInputs.relevant_clip_ids []
    (fun l => BVal.pairScalar
      (pad_sequences_1d (l.map (fun r => r.map (fun (i : Int) => (i : ℚ)))) 0).1
      (pad_sequences_1d (l.map (fun r => r.map (fun (i : Int) => (i : ℚ)))) 0).2)
    (fun hb e he => (huni e he).2.2.2.2 hb)
  simp only [cg_detr_start_end_collate, h1, h2, h3, h4, h5, List.map_map, Function.comp_def]

/-- Claim C4 (amended): for every non-empty batch in which every label key of
the first example is present in every example (otherwise the collator
raises), the collator pads `query_feat` and `video_feat` to the maximum
length in the batch and pairs each with a mask of the valid positions;
`saliency_all_labels`, when present, is padded to the maximum length as well,
but only the padded tensor is kept — its mask is discarded. -/
theorem C4_collate_padded_amended (e0 : ModelInputs) (tl : List ModelInputs)
    (huni : uniformKeys e0 (e0 :: tl)) :
    ∃ bd, cg_detr_start_end_collate (e0 :: tl) = some bd ∧
      (∃ P M, bd.query_feat = BVal.pair2d P M ∧
        paddedRowsOK ((e0 :: tl).map ModelInputs.query_feat) P ∧
        maskOK ((e0 :: tl).map ModelInputs.query_feat) M) ∧
      (∃ P M, bd.video_feat = BVal.pair2d P M ∧
        paddedRowsOK ((e0 :: tl).map ModelInputs.video_feat) P ∧
        maskOK ((e0 :: tl).map ModelInputs.video_feat) M) ∧
      (e0.saliency_all_labels.isSome →
        ∃ P, bd.saliency_all_labels = some (BVal.tensor2 P) ∧
          paddedRowsOK ((e0 :: tl).map (fun e => e.saliency_all_labels.getD [])) P) ∧
      (e0.saliency_all_labels = none → bd.saliency_all_labels = none) := by
  rw [collate_eq e0 tl huni]
  refine ⟨_, rfl, ?_, ?_, ?_, ?_⟩
  · exact ⟨_, _, rfl, pad_sequences_1d_rowsOK _ _, pad_sequences_1d_maskOK _ _⟩
  · exact ⟨_, _, rfl, pad_sequences_1d_rowsOK _ _, pad_sequences_1d_maskOK _ _⟩
  · intro hs
    refine ⟨(pad_sequences_1d ((e0 :: tl).map (fun e => e.saliency_all_labels.getD [])) 0).1,
      ?_, pad_sequences_1d_rowsOK _ _⟩
    simp only []
    rw [if_pos hs]
  · intro hn
    simp only []
    rw [if_neg (by simp [hn])]

/-- The first example of the C4 batch: a length-1 saliency label array. -/
def C4e0 : ModelInputs :=
  { query_feat := [[1]], video_feat := [[2]], span_labels := none,
    saliency_pos_labels := none, saliency_neg_labels := none,
    saliency_all_labels := some [4], relevant_clip_ids := none,
    vid := "a", qid := 1 }

/-- The second example of the C4 batch: a length-2 saliency label array. -/
def C4e1 : ModelInputs :=
  { query_feat := [[1]], video_feat := [[2]], span_labels := none,
    saliency_pos_labels := none, saliency_neg_labels := none,
    saliency_all_labels := some [5, 6], relevant_clip_ids := none,
    vid := "b", qid := 2 }

/-- Witness for the amended C4: the two-example batch with saliency label
arrays of lengths 1 and 2 (uniform key presence). -/
theorem C4_collate_padded_amended_witness :
    ∃ bd, cg_detr_start_end_collate (C4e0 :: [C4e1]) = some bd ∧
      (∃ P M, bd.query_feat = BVal.pair2d P M ∧
        paddedRowsOK ((C4e0 :: [C4e1]).map ModelInputs.query_feat) P ∧
        maskOK ((C4e0 :: [C4e1]).map ModelInputs.query_feat) M) ∧
      (∃ P M, bd.video_feat = BVal.pair2d P M ∧
        paddedRowsOK ((C4e0 :: [C4e1]).map ModelInputs.video_feat) P ∧
        maskOK ((C4e0 :: [C4e1]).map ModelInputs.video_feat) M) ∧
      (C4e0.saliency_all_labels.isSome →
        ∃ P, bd.saliency_all_labels = some (BVal.tensor2 P) ∧
          paddedRowsOK ((C4e0 :: [C4e1]).map (fun e => e.saliency_all_labels.getD [])) P) ∧
      (C4e0.saliency_all_labels = none → bd.saliency_all_labels = none) :=
  C4_collate_padded_amended C4e0 [C4e1] (by unfold uniformKeys; decide)

/-- The statement of claim C4 for one batch, used to exhibit a counterexample:
every variable-length field — query_feat, video_feat, and saliency_all_labels
when present — is padded to the maximum length and paired with a mask marking
the valid positions. -/
def C4_claimStatement (batch : List ModelInputs) : Prop :=
  batch ≠ [] →
  ∃ bd, cg_detr_start_end_collate batch = some bd ∧
    (∃ P M, bd.query_feat = BVal.pair2d P M ∧
      paddedRowsOK (batch.map ModelInputs.query_feat) P ∧
      maskOK (batch.map ModelInputs.query_feat) M) ∧
    (∃ P M, bd.video_feat = BVal.pair2d P M ∧
      paddedRowsOK (batch.map ModelInputs.video_feat) P ∧
      maskOK (batch.map ModelInputs.video_feat) M) ∧
    ((batch.getD 0 default).saliency_all_labels.isSome →
      ∃ P M, bd.saliency_all_labels = some (BVal.pairScalar P M) ∧
        paddedRowsOK (batch.map (fun e => e.saliency_all_labels.getD [])) P ∧
        maskOK (batch.map (fun e => e.saliency_all_labels.getD [])) M)

/-- A two-example batch whose saliency label arrays have lengths 1 and 2. -/
def C4_batch : List ModelInputs := [C4e0, C4e1]

/-- Claim C4 (counterexample): on a batch with saliency label arrays of
lengths 1 and 2, the collated `saliency_all_labels` value is the bare padded
tensor — the mask computed by `pad_sequences_1d` is discarded — so the claim
that every padded variable-length field is paired with a mask fails. -/
theorem C4_counterexample : ¬ C4_claimStatement C4_batch := by
  intro h
  obtain ⟨bd, hbd, -, -, hsal⟩ := h (by decide)
  obtain ⟨P, M, hPM, -, -⟩ := hsal (by decide)
  have hproj : (cg_detr_start_end_collate C4_batch).map BatchedData.saliency_all_labels =
      some (some (BVal.tensor2 (pad_sequences_1d
        (C4_batch.map (fun e => e.saliency_all_labels.getD [])) 0).1)) := rfl
  rw [hbd] at hproj
  simp only [Option.map_some'] at hproj
  rw [Option.some_inj.mp hproj] at hPM
  simp at hPM

/-- Claim C6: for every non-empty batch whose examples all carry span labels,
the collated "span_labels" entry is a list of one `dict(spans=...)` wrapper
per example, in batch order, each holding that example's span-label tensor
unchanged (not padded, stacked, or concatenated). -/
theorem C6_collate_span_labels (e0 : ModelInputs) (tl : List ModelInputs)
    (hall : ∀ e ∈ e0 :: tl, e.span_labels.isSome)
    (huni : uniformKeys e0 (e0 :: tl)) :
    ∃ bd L, cg_detr_start_end_collate (e0 :: tl) = some bd ∧
      bd.span_labels = some (BVal.spans L) ∧
      L.length = (e0 :: tl).length ∧
      ∀ i : Nat, i < (e0 :: tl).length →
        L.getD i default = ⟨(((e0 :: tl).getD i default).span_labels).getD []⟩ := by
  have h0 : e0.span_labels.isSome := hall e0 (List.mem_cons_self _ _)
  rw [collate_eq e0 tl huni]
  refine ⟨_, (e0 :: tl).map (fun e => ⟨e.span_labels.getD []⟩), rfl, ?_, ?_, ?_⟩
  · simp only []
    rw [if_pos h0]
  · simp
  · intro i hi
    rw [getD_of_lt _ _ _ (by simpa using hi), List.getElem_map, getD_of_lt _ _ _ hi]

/-- A single-example batch carrying one span label row, used by the C6
witness. -/
def C6e0 : ModelInputs :=
  { query_feat := [[1]], video_feat := [[2]], span_labels := some [(0, 1)],
    saliency_pos_labels := none, saliency_neg_labels := none,
    saliency_all_labels := none, relevant_clip_ids := none, vid := "a", qid := 1 }

/-- Witness for C6: a single-example batch carrying one span label row. -/
theorem C6_collate_span_labels_witness :
    ∃ bd L, cg_detr_start_end_collate (C6e0 :: []) = some bd ∧
      bd.span_labels = some (BVal.spans L) ∧
      L.length = (C6e0 :: []).length ∧
      ∀ i : Nat, i < (C6e0 :: []).length →
        L.getD i default = ⟨(((C6e0 :: []).getD i default).span_labels).getD []⟩ :=
  C6_collate_span_labels C6e0 [] (by decide) (by unfold uniformKeys; decide)

/-- The prepared `model_inputs` of `cg_detr_prepare_batch_inputs`
(lines 449-456): the padded query/video tensors with their masks, and the
pass-through vid/qid lists. -/
structure PreparedInputs where
  src_txt : List (List (List ℚ))
  src_txt_mask : List (List Bool)
  src_vid : List (List (List ℚ))
  src_vid_mask : List (List Bool)
  vid : List String
  qid : List Int
deriving DecidableEq

/-- The `targets` dictionary of `cg_detr_prepare_batch_inputs`
(lines 457-470). -/
structure BatchTargets where
  span_labels : Option (List SpanDict)
  saliency_pos_labels : Option (List (List Int))
  saliency_neg_labels : Option (List (List Int))
  saliency_all_labels : Option (List (List ℚ))
  relevant_clips : Option (List (List ℚ))
deriving DecidableEq

/-- `cg_detr_prepare_batch_inputs` (lines 448-472).  The `.to(device)`
transfer is modelled as the identity on values; `none` models the KeyError
raised when a required feature key is missing or has an unexpected shape.
The pos/neg saliency keys are written together under the single
`"saliency_pos_labels" in batched_model_inputs` check (lines 464-466), so the
model reads them as a pair; `saliency_all_labels` is stored both under
`saliency_all_labels` and under `relevant_clips` (lines 468-470); `targets` is
`None` exactly when the dict stayed empty (line 471). -/
def cg_detr_prepare_batch_inputs (bd : BatchedData) :
    Option (PreparedInputs × Option BatchTargets) :=
  match bd.query_feat, bd.video_feat, bd.vid, bd.qid with
  | BVal.pair2d qp qm, BVal.pair2d vp vm, BVal.strs vs, BVal.ids qs =>
    let spanT : Option (List SpanDict) :=
      match bd.span_labels with
      | some (BVal.spans l) => some l
      | _ => none
    let posnegT : Option (List (List Int)) × Option (List (List Int)) :=
      match bd.saliency_pos_labels, bd.saliency_neg_labels with
      | some (BVal.long2d p), some (BVal.long2d n) => (some p, some n)
      | _, _ => (none, none)
    let salT : Option (List (List ℚ)) :=
      match bd.saliency_all_labels with
      | some (BVal.tensor2 s) => some s
      | _ => none
    let targets : Option BatchTargets :=
      if spanT.isNone ∧ posnegT.1.isNone ∧ salT.isNone then none
      else some ⟨spanT, posnegT.1, posnegT.2, salT, salT⟩
    some (⟨qp, qm, vp, vm, vs, qs⟩, targets)
  | _, _, _, _ => none

/-- Claim C7: on the collated batch of a non-empty example list (whose first
example has the pos/neg saliency keys together, as `__getitem__` always
produces them), `cg_detr_prepare_batch_inputs` returns `src_txt` and
`src_txt_mask` equal to the padded query tensor and its mask, `src_vid` and
`src_vid_mask` equal to the padded video tensor and its mask, passes `vid` and
`qid` through unchanged, and returns `targets = none` exactly when the batch
contains none of span_labels, saliency_pos_labels and saliency_all_labels. -/
theorem C7_prepare_batch_inputs (e0 : ModelInputs) (tl : List ModelInputs)
    (hpairing : e0.saliency_pos_labels.isSome = e0.saliency_neg_labels.isSome)
    (huni : uniformKeys e0 (e0 :: tl)) :
    ∃ bd mi t,
      cg_detr_start_end_collate (e0 :: tl) = some bd ∧
      cg_detr_prepare_batch_inputs bd = some (mi, t) ∧
      mi.src_txt = (pad_sequences_1d ((e0 :: tl).map ModelInputs.query_feat)
        (zeroRow e0.query_feat)).1 ∧
      mi.src_txt_mask = (pad_sequences_1d ((e0 :: tl).map ModelInputs.query_feat)
        (zeroRow e0.query_feat)).2 ∧
      mi.src_vid = (pad_sequences_1d ((e0 :: tl).map ModelInputs.video_feat)
        (zeroRow e0.video_feat)).1 ∧
      mi.src_vid_mask = (pad_sequences_1d ((e0 :: tl).map ModelInputs.video_feat)
        (zeroRow e0.video_feat)).2 ∧
      mi.vid = (e0 :: tl).map ModelInputs.vid ∧
      mi.qid = (e0 :: tl).map ModelInputs.qid ∧
      (t = none ↔ (e0.span_labels = none ∧ e0.saliency_pos_labels = none ∧
        e0.saliency_all_labels = none)) := by
  obtain ⟨qf, vf, sp, pos, neg, sal, rel, vidf, qidf⟩ := e0
  dsimp only at hpairing
  rw [collate_eq _ tl huni]
  rcases sp with _ | sv <;> rcases pos with _ | pv <;> rcases neg with _ | nv <;>
    rcases sal with _ | av <;>
    first
      | (refine ⟨_, _, _, rfl, rfl, rfl, rfl, rfl, rfl, rfl, rfl, ?_⟩ <;> (simp; done))
      | (simp at hpairing)

/-- A minimal one-example batch without label keys, used by the C7 witness. -/
def C7e0 : ModelInputs :=
  { query_feat := [[1]], video_feat := [[2]], span_labels := none,
    saliency_pos_labels := none, saliency_neg_labels := none,
    saliency_all_labels := none, relevant_clip_ids := none, vid := "v", qid := 3 }

/-- Witness for C7: a one-example batch without label keys; its targets come
out as `none`. -/
theorem C7_prepare_batch_inputs_witness :
    ∃ bd mi t,
      cg_detr_start_end_collate (C7e0 :: []) = some bd ∧
      cg_detr_prepare_batch_inputs bd = some (mi, t) ∧
      mi.src_txt = (pad_sequences_1d ((C7e0 :: []).map ModelInputs.query_feat)
        (zeroRow C7e0.query_feat)).1 ∧
      mi.src_txt_mask = (pad_sequences_1d ((C7e0 :: []).map ModelInputs.query_feat)
        (zeroRow C7e0.query_feat)).2 ∧
      mi.src_vid = (pad_sequences_1d ((C7e0 :: []).map ModelInputs.video_feat)
        (zeroRow C7e0.video_feat)).1 ∧
      mi.src_vid_mask = (pad_sequences_1d ((C7e0 :: []).map ModelInputs.video_feat)
        (zeroRow C7e0.video_feat)).2 ∧
      mi.vid = (C7e0 :: []).map ModelInputs.vid ∧
      mi.qid = (C7e0 :: []).map ModelInputs.qid ∧
      (t = none ↔ (C7e0.span_labels = none ∧ C7e0.saliency_pos_labels = none ∧
        C7e0.saliency_all_labels = none)) :=
  C7_prepare_batch_inputs C7e0 [] (by decide) (by unfold uniformKeys; decide)

/-! ## Dataset construction (load_data and the domain filter) -/

/-- One parsed line of the annotation file (docstring lines 55-64; tvsum and
youtube_highlight records additionally carry a `domain` and a per-clip `label`
matrix, and the qvhighlights test set omits `relevant_windows`). -/
structure AnnotationRecord where
  qid : Int
  query : String
  duration : ℚ
  vid : String
  domain : String
  relevant_clip_ids : List Int
  saliency_scores : List (List ℚ)
  relevant_windows : Option (List (ℚ × ℚ))
  label : List (List ℚ)
deriving DecidableEq, Inhabited

/-- The constructor arguments of `CGDETR_StartEndDataset` that determine
`self.data`.  Modelled from the spec: `load_jsonl` (from
`lighthouse.common.utils.basic_utils`, not under `src/`) "reads a
line-delimited annotation file" / "parse JSON-lines annotations", so the
annotation file is represented by its parsed record list. -/
structure DatasetArgs where
  dset_name : String
  domain : String
  data_ratio : ℚ
  annotation_file : List AnnotationRecord
deriving Inhabited

/-- `CGDETR_StartEndDataset.load_data` (lines 121-123): returns every parsed
record of the annotation file; no constructor argument other than the data
path is consulted. -/
def load_data (args : DatasetArgs) : List AnnotationRecord := args.annotation_file

/-- The `self.data` computed by `CGDETR_StartEndDataset.__init__`
(lines 102-109): `load_data` followed by the tvsum / youtube_highlight domain
filtering. -/
def init_self_data (args : DatasetArgs) : List AnnotationRecord :=
  let data := load_data args
  if args.dset_name = "tvsum" ∨ args.dset_name = "youtube_highlight" then
    data.filter (fun d => d.domain == args.domain)
  else data

/-- Claim C8: two dataset constructions differing only in `data_ratio` load
identical data: `load_data` returns every record of the annotation file
regardless of `data_ratio`, and the resulting `self.data` and its length do
not depend on the `data_ratio` argument. -/
theorem C8_data_ratio_independent (args : DatasetArgs) (r : ℚ) :
    load_data { args with data_ratio := r } = args.annotation_file ∧
    init_self_data { args with data_ratio := r } = init_self_data args ∧
    (init_self_data { args with data_ratio := r }).length =
      (init_self_data args).length :=
  ⟨rfl, rfl, rfl⟩
